import Mathlib

/-!
Verification of the enduro2d VFS layer (src/sources/enduro2d/core/vfs.cpp)
as a shallow embedding in Lean 4. Machine integers of the source that
matter here (recursion level `u8 level`, sizes) are modelled as `Nat`;
C++ exceptions are modelled with `Except VfsErr`; null pointers with
`Option`.
-/

/-- Error type modelling the `bad_vfs_operation` exception thrown by the
VFS layer. -/
inductive VfsErr where
  | badVfsOperation
deriving DecidableEq, Repr

/-- URL value type: `{scheme, path}` (spec section 3; `url` from
enduro2d/utils). Structural equality only. -/
structure Url where
  scheme : String
  path : String
deriving DecidableEq, Repr

/-- Modelled from the spec: path join used by `url::operator/` (the `url`
class is not under src/; spec section 6 says the join "concatenates an
alias target path with the remainder, matching ordinary path-segment
joining rules"). -/
def pathCombine (lhs rhs : String) : String :=
  if lhs = "" then rhs
  else if rhs = "" then lhs
  else lhs ++ "/" ++ rhs

/-- Modelled from the spec: `url operator/` — the target URL keeps its
scheme and its path is joined with the remaining path. -/
def urlJoin (t : Url) (p : String) : Url :=
  ⟨t.scheme, pathCombine t.path p⟩

/-- Model of an opened `input_stream`: its full remaining contents, and
whether draining it to EOF would succeed. -/
structure StreamModel where
  contents : List Nat
  healthy : Bool
deriving DecidableEq, Repr

/-- Model of a polymorphic `file_source` (the `file_source` interface:
`valid/exists/open/load/write`), as a record of its observable behavior. -/
structure FileSource where
  valid : Bool
  srcExists : String → Bool
  srcOpen : String → Option StreamModel
  srcLoad : String → List Nat × Bool
  srcWrite : String → Bool → Option Unit

/-- Association-list model of `hash_map<str, V>::find` (vfs.cpp uses
`aliases.find` / `schemes.find`). -/
def mapFind {α : Type} : List (String × α) → String → Option α
  | [], _ => none
  | (k, v) :: rest, s => if k = s then some v else mapFind rest s

/-- Registry state of `vfs::state` (vfs.cpp lines 79-104): the alias map
and the scheme map. A scheme map value models `file_source_uptr`, so it is
an `Option FileSource` (a null unique_ptr is `none`). The mutex and the
worker are modelled separately (see the event-trace section). -/
structure VfsState where
  aliases : List (String × Url)
  schemes : List (String × Option FileSource)

/-- Recursion core of `vfs::state::resolve_url` (vfs.cpp lines 86-94).
The source recurses with `level + 1` and throws once `level > 32`; here
`fuel = 33 - level`, so `fuel = 0` exactly when `level > 32` and the
recursion is structural on `fuel`. -/
def resolveUrlGo (st : VfsState) : Nat → Url → Except VfsErr Url
  | 0, _ => .error .badVfsOperation
  | fuel + 1, u =>
    match mapFind st.aliases u.scheme with
    | some t => resolveUrlGo st fuel (urlJoin t u.path)
    | none => .ok u

/-- Embedding of `vfs::state::resolve_url(url, level)` (vfs.cpp lines
86-94). -/
def resolveUrl (st : VfsState) (u : Url) (level : Nat) : Except VfsErr Url :=
  resolveUrlGo st (33 - level) u

/-- Embedding of `vfs::state::with_file_source` (vfs.cpp lines 96-103):
resolve the URL, look the resolved scheme up in the scheme map, invoke
the callback when a non-null source is found, otherwise return the
fallback result. Exceptions from `resolve_url` propagate. -/
def withFileSource {α : Type} (st : VfsState) (u : Url)
    (f : FileSource → String → α) (fallback : α) : Except VfsErr α :=
  (resolveUrl st u 0).map fun ru =>
    match mapFind st.schemes ru.scheme with
    | some (some src) => f src ru.path
    | _ => fallback

/-- Embedding of `vfs::exists` (vfs.cpp lines 135-141). -/
def vfsExists (st : VfsState) (u : Url) : Except VfsErr Bool :=
  withFileSource st u (fun s p => s.srcExists p) false

/-- Embedding of `vfs::open` (vfs.cpp lines 143-149); an empty
`input_stream_uptr` is `none`. -/
def vfsOpen (st : VfsState) (u : Url) : Except VfsErr (Option StreamModel) :=
  withFileSource st u (fun s p => s.srcOpen p) none

/-- Embedding of `vfs::load` (vfs.cpp lines 151-157). -/
def vfsLoad (st : VfsState) (u : Url) : Except VfsErr (List Nat × Bool) :=
  withFileSource st u (fun s p => s.srcLoad p) ([], false)

/-- Embedding of `vfs::write` (vfs.cpp lines 159-165). -/
def vfsWrite (st : VfsState) (u : Url) (append : Bool) :
    Except VfsErr (Option Unit) :=
  withFileSource st u (fun s p => s.srcWrite p append) none

/-- Embedding of `vfs::resolve_scheme_aliases` (vfs.cpp lines 176-179). -/
def vfsResolveSchemeAliases (st : VfsState) (u : Url) : Except VfsErr Url :=
  resolveUrl st u 0

/-- Embedding of `vfs::register_scheme` (vfs.cpp lines 111-117): the
source pointer must be non-null and `valid()`, then `hash_map::insert`
inserts only when the key is absent and reports whether it inserted. -/
def registerScheme (st : VfsState) (scheme : String)
    (source : Option FileSource) : VfsState × Bool :=
  match source with
  | some src =>
    if src.valid then
      match mapFind st.schemes scheme with
      | some _ => (st, false)
      | none => (⟨st.aliases, (scheme, some src) :: st.schemes⟩, true)
    else (st, false)
  | none => (st, false)

/-- Embedding of `vfs::unregister_scheme` (vfs.cpp lines 119-122):
`hash_map::erase(key) > 0` removes the entry for the key if present and
reports whether one was removed. -/
def unregisterScheme (st : VfsState) (scheme : String) : VfsState × Bool :=
  (⟨st.aliases, st.schemes.filter (fun kv => kv.1 ≠ scheme)⟩,
   (mapFind st.schemes scheme).isSome)

/-- Embedding of `vfs::register_scheme_alias` (vfs.cpp lines 124-128). -/
def registerSchemeAlias (st : VfsState) (scheme : String) (target : Url) :
    VfsState × Bool :=
  match mapFind st.aliases scheme with
  | some _ => (st, false)
  | none => (⟨(scheme, target) :: st.aliases, st.schemes⟩, true)

/-- Embedding of `vfs::unregister_scheme_alias` (vfs.cpp lines 130-133). -/
def unregisterSchemeAlias (st : VfsState) (scheme : String) : VfsState × Bool :=
  (⟨st.aliases.filter (fun kv => kv.1 ≠ scheme), st.schemes⟩,
   (mapFind st.aliases scheme).isSome)

deriving instance DecidableEq for Except

/-! Archive file source (vfs.cpp lines 11-71 and 181-277). A ZIP central
directory is modelled as the list of its entries; an entry is `corrupt`
when `mz_zip_reader_extract_file_iter_new` would fail on it even though
it is listed. -/

/-- Entry of the archive central directory. -/
structure ZipEntry where
  name : String
  contents : List Nat
  corrupt : Bool
deriving DecidableEq, Repr

/-- Archive central directory (an `mz_zip_archive` that opened
successfully). -/
structure ZipArchive where
  entries : List ZipEntry
deriving DecidableEq, Repr

/-- State of an `archive_stream` (vfs.cpp lines 15-70): the extraction
iterator over one entry plus the `iter_pos_` counter. -/
structure ArchiveStreamState where
  entry : ZipEntry
  iterPos : Nat
deriving DecidableEq, Repr

/-- Case-sensitive exact-name lookup in the central directory, as
`mz_zip_reader_locate_file(..., MZ_ZIP_FLAG_CASE_SENSITIVE)`. -/
def findEntry (arch : ZipArchive) (name : String) : Option ZipEntry :=
  arch.entries.find? (fun e => e.name = name)

/-- Embedding of `archive_stream::open_iter_state_` (vfs.cpp lines 59-63):
`mz_zip_reader_extract_file_iter_new` returns null when the entry is
missing or cannot be opened (corrupt). -/
def openIterState (arch : ZipArchive) (name : String) :
    Option ArchiveStreamState :=
  match findEntry arch name with
  | some e => if e.corrupt then none else some ⟨e, 0⟩
  | none => none

/-- Embedding of the `archive_stream` constructor (vfs.cpp lines 24-31):
a null iterator state makes the constructor throw `bad_vfs_operation`. -/
def mkArchiveStream (arch : ZipArchive) (name : String) :
    Except VfsErr ArchiveStreamState :=
  match openIterState arch name with
  | some s => .ok s
  | none => .error .badVfsOperation

/-- Embedding of `archive_file_source::exists` (vfs.cpp lines 238-244). -/
def archiveSourceExists (arch : ZipArchive) (name : String) : Bool :=
  (findEntry arch name).isSome

/-- Embedding of `archive_file_source::open` (vfs.cpp lines 246-259): the
whole construction sits in a `try { ... } catch (...) { return nullptr; }`
block, so every exception becomes a null stream handle. -/
def archiveSourceOpen (arch : ZipArchive) (name : String) :
    Option ArchiveStreamState :=
  match mkArchiveStream arch name with
  | .ok s => some s
  | .error _ => none

/-- Embedding of `archive_file_source::load` (vfs.cpp lines 261-272):
`mz_zip_reader_extract_file_to_heap` succeeds only on a present,
non-corrupt entry. -/
def archiveSourceLoad (arch : ZipArchive) (name : String) :
    List Nat × Bool :=
  match findEntry arch name with
  | some e => if e.corrupt then ([], false) else (e.contents, true)
  | none => ([], false)

/-- Embedding of `archive_stream::read` (vfs.cpp lines 38-43): pull up to
`size` decompressed bytes and advance `iter_pos_`. -/
def archiveStreamRead (s : ArchiveStreamState) (size : Nat) :
    ArchiveStreamState × List Nat :=
  let bytes := (s.entry.contents.drop s.iterPos).take size
  (⟨s.entry, s.iterPos + bytes.length⟩, bytes)

/-- Embedding of `archive_stream::seek` (vfs.cpp lines 45-48): the
arguments are discarded and `bad_vfs_operation` is always thrown. -/
def archiveStreamSeek (s : ArchiveStreamState) (offset : Int)
    (relative : Bool) : Except VfsErr Nat :=
  .error .badVfsOperation

/-- Embedding of `archive_stream::tell` (vfs.cpp lines 50-52). -/
def archiveStreamTell (s : ArchiveStreamState) : Nat :=
  s.iterPos

/-- Embedding of `archive_stream::length` (vfs.cpp lines 54-57): the
uncompressed size of the entry. -/
def archiveStreamLength (s : ArchiveStreamState) : Nat :=
  s.entry.contents.length

/-! Asynchronous load path (vfs.cpp lines 167-174). `vfs::load_async`
evaluates `open(url)` on the calling thread (as the argument of
`worker.async`), then the single worker runs a total task that drains the
stream and reports `(buffer, success)`. -/

/-- Modelled from the spec: `streams::try_read_tail` (streams.cpp is not
under src/). Per spec sections 4.2 and 7 the task "performs `open` then
drains the stream to EOF into a buffer" and "async tasks catch I/O
failures and report them as part of the `(buffer, success)` result", so
draining yields the full contents of a healthy stream and fails on a null
or failing stream. -/
def tryReadTail (stream : Option StreamModel) : Option (List Nat) :=
  match stream with
  | some s => if s.healthy then some s.contents else none
  | none => none

/-- Body of the worker task of `vfs::load_async` (vfs.cpp lines 168-173).
It is a total function: every failure is reported through the returned
pair. -/
def loadAsyncTask (stream : Option StreamModel) : List Nat × Bool :=
  match tryReadTail stream with
  | some buf => (buf, true)
  | none => ([], false)

/-- Embedding of `vfs::load_async` (vfs.cpp lines 167-174): `open(url)`
runs first on the calling thread, and any exception it raises (for
example from alias resolution) propagates to the caller before a task is
enqueued; otherwise the future resolves to the task result. -/
def vfsLoadAsync (st : VfsState) (u : Url) : Except VfsErr (List Nat × Bool) :=
  (vfsOpen st u).map loadAsyncTask

/-! Lock/IO event traces. The synchronous facade operations
`vfs::exists/open/load/write` (vfs.cpp lines 135-165) all have the same
shape: a `std::lock_guard` on the registry mutex is constructed at
function entry, `state_->with_file_source` resolves the URL and, when a
non-null source is matched, invokes the source I/O call inside the lambda,
and the guard releases the mutex at scope exit (also during exception
unwind). The trace records that event order. -/

/-- Events of one synchronous facade operation. -/
inductive VfsEvent where
  | lockAcquire
  | lockRelease
  | sourceIO
deriving DecidableEq, Repr

/-- Event trace of one synchronous facade operation (vfs.cpp lines
135-165): acquire the mutex, perform the source I/O if a source is
matched (no I/O when resolution throws or no source is registered),
release the mutex. -/
def facadeTrace (st : VfsState) (u : Url) : List VfsEvent :=
  VfsEvent.lockAcquire ::
    ((match resolveUrl st u 0 with
      | .ok ru =>
        match mapFind st.schemes ru.scheme with
        | some (some _) => [VfsEvent.sourceIO]
        | _ => []
      | .error _ => []) ++ [VfsEvent.lockRelease])

/-- Count of `sourceIO` events that occur while the lock depth is
positive. -/
def ioWhileLockedCount : List VfsEvent → Nat → Nat
  | [], _ => 0
  | VfsEvent.lockAcquire :: rest, d => ioWhileLockedCount rest (d + 1)
  | VfsEvent.lockRelease :: rest, d => ioWhileLockedCount rest (d - 1)
  | VfsEvent.sourceIO :: rest, d =>
    (if 0 < d then 1 else 0) + ioWhileLockedCount rest d

/-- Count of all `sourceIO` events of a trace. -/
def ioCount : List VfsEvent → Nat
  | [] => 0
  | VfsEvent.sourceIO :: rest => 1 + ioCount rest
  | _ :: rest => ioCount rest

/-! Alias chains. One resolution hop rewrites `u` to
`aliases[u.scheme] / u.path`; the chain of a URL is the sequence of its
hops. Joining never changes which scheme comes next (the joined URL keeps
the scheme of the alias target), so cycles live at the scheme level. -/

/-- Single alias hop on a URL, exactly the rewrite done by
`resolve_url` when an alias is present. -/
def urlHop (st : VfsState) (u : Url) : Option Url :=
  (mapFind st.aliases u.scheme).map (fun t => urlJoin t u.path)

/-- Iterated alias hops on a URL. -/
def urlHopN (st : VfsState) : Nat → Url → Option Url
  | 0, u => some u
  | n + 1, u => (urlHop st u).bind (urlHopN st n)

/-- Single alias hop on a scheme name. -/
def schemeStep (st : VfsState) (s : String) : Option String :=
  (mapFind st.aliases s).map Url.scheme

/-- Iterated alias hops on a scheme name. -/
def schemeHopN (st : VfsState) : Nat → String → Option String
  | 0, s => some s
  | n + 1, s => (schemeStep st s).bind (schemeHopN st n)

/-- Alias configuration with a cycle reachable from scheme `s0`: some
scheme repeats along the hop sequence. -/
def CyclicFrom (st : VfsState) (s0 : String) : Prop :=
  ∃ i j x, i < j ∧ schemeHopN st i s0 = some x ∧ schemeHopN st j s0 = some x

/-! Helper lemmas about the resolver and alias hops. -/

/-- Scheme of a joined URL is the scheme of the alias target. -/
theorem urlJoin_scheme (t : Url) (p : String) : (urlJoin t p).scheme = t.scheme :=
  rfl

/-- Resolution with remaining fuel stops immediately on a scheme with no
alias. -/
theorem resolveUrlGo_noAlias (st : VfsState) (fuel : Nat) (u : Url)
    (h : mapFind st.aliases u.scheme = none) :
    resolveUrlGo st (fuel + 1) u = .ok u := by
  unfold resolveUrlGo
  rw [h]

/-- Whatever URL resolution returns has no alias at its scheme. -/
theorem resolveUrlGo_ok_noAlias (st : VfsState) :
    ∀ fuel u r, resolveUrlGo st fuel u = .ok r →
      mapFind st.aliases r.scheme = none := by
  intro fuel
  induction fuel with
  | zero => intro u r h; simp [resolveUrlGo] at h
  | succ n ih =>
    intro u r h
    unfold resolveUrlGo at h
    split at h
    · exact ih _ _ h
    · injection h with h2
      subst h2
      assumption

/-- Resolution succeeds along a hop chain that ends within the fuel. -/
theorem resolveUrlGo_ok_of_hops (st : VfsState) :
    ∀ N fuel u r, urlHopN st N u = some r →
      mapFind st.aliases r.scheme = none → N < fuel →
      resolveUrlGo st fuel u = .ok r := by
  intro N
  induction N with
  | zero =>
    intro fuel u r h hnone hlt
    injection h with h2
    subst h2
    cases fuel with
    | zero => omega
    | succ f => exact resolveUrlGo_noAlias st f u hnone
  | succ n ih =>
    intro fuel u r h hnone hlt
    rcases Option.bind_eq_some.mp h with ⟨w, hw, hr⟩
    rcases Option.map_eq_some'.mp hw with ⟨t, ht, hwj⟩
    subst hwj
    cases fuel with
    | zero => omega
    | succ f =>
      unfold resolveUrlGo
      rw [ht]
      exact ih f _ r hr hnone (by omega)

/-- Resolution runs out of fuel when at least `fuel` hops are possible. -/
theorem resolveUrlGo_error_of_hops (st : VfsState) :
    ∀ fuel u v, urlHopN st fuel u = some v →
      resolveUrlGo st fuel u = .error .badVfsOperation := by
  intro fuel
  induction fuel with
  | zero => intro u v h; rfl
  | succ n ih =>
    intro u v h
    rcases Option.bind_eq_some.mp h with ⟨w, hw, hr⟩
    rcases Option.map_eq_some'.mp hw with ⟨t, ht, hwj⟩
    subst hwj
    unfold resolveUrlGo
    rw [ht]
    exact ih _ _ hr

/-- Scheme-level hops lift to URL-level hops. -/
theorem urlHopN_of_schemeHopN (st : VfsState) :
    ∀ n u s, schemeHopN st n u.scheme = some s →
      ∃ v, urlHopN st n u = some v ∧ v.scheme = s := by
  intro n
  induction n with
  | zero =>
    intro u s h
    injection h with h2
    exact ⟨u, rfl, h2⟩
  | succ n ih =>
    intro u s h
    rcases Option.bind_eq_some.mp h with ⟨s1, hs1, hrest⟩
    rcases Option.map_eq_some'.mp hs1 with ⟨t, ht, hts⟩
    have hrest2 : schemeHopN st n (urlJoin t u.path).scheme = some s := by
      rw [urlJoin_scheme, hts]
      exact hrest
    rcases ih (urlJoin t u.path) s hrest2 with ⟨v, hv, hvs⟩
    refine ⟨v, ?_, hvs⟩
    simp [urlHopN, urlHop, ht, hv]

/-- Composition of scheme hop counts. -/
theorem schemeHopN_add (st : VfsState) :
    ∀ a b s, schemeHopN st (a + b) s
      = (schemeHopN st a s).bind (schemeHopN st b) := by
  intro a
  induction a with
  | zero => intro b s; simp [schemeHopN]
  | succ n ih =>
    intro b s
    have hre : n + 1 + b = (n + b) + 1 := by omega
    rw [hre]
    cases hstep : schemeStep st s with
    | none => simp [schemeHopN, hstep]
    | some s1 => simp [schemeHopN, hstep, ih]

/-- Pumping a scheme-level cycle. -/
theorem schemeHopN_pump (st : VfsState) (d : Nat) (x : String)
    (hd : schemeHopN st d x = some x) :
    ∀ m, schemeHopN st (m * d) x = some x := by
  intro m
  induction m with
  | zero => simp [schemeHopN]
  | succ n ih =>
    have hre : (n + 1) * d = d + n * d := by ring
    rw [hre, schemeHopN_add, hd]
    simpa using ih

/-- A successful long hop run has successful shorter runs. -/
theorem schemeHopN_of_le (st : VfsState) (a b : Nat) (s y : String)
    (h : schemeHopN st (a + b) s = some y) :
    ∃ z, schemeHopN st a s = some z := by
  rw [schemeHopN_add] at h
  rcases Option.bind_eq_some.mp h with ⟨z, hz, _⟩
  exact ⟨z, hz⟩

/-- From a reachable cycle, 33 hops are always possible. -/
theorem cyclic_hops (st : VfsState) (s : String) (h : CyclicFrom st s) :
    ∃ y, schemeHopN st 33 s = some y := by
  rcases h with ⟨i, j, x, hij, hi, hj⟩
  have hcyc : schemeHopN st (j - i) x = some x := by
    have hadd := schemeHopN_add st i (j - i) s
    have hij2 : i + (j - i) = j := by omega
    rw [hij2, hj, hi] at hadd
    simpa using hadd.symm
  have hbig : schemeHopN st (i + 33 * (j - i)) s = some x := by
    rw [schemeHopN_add, hi]
    simpa using schemeHopN_pump st (j - i) x hcyc 33
  have hr : i + 33 * (j - i) = 33 + (i + 33 * (j - i) - 33) := by omega
  rw [hr] at hbig
  exact schemeHopN_of_le st 33 _ s x hbig

/-! Concrete registries, sources and archives used by witnesses and
counterexamples. -/

/-- Empty registry. -/
def emptySt : VfsState := ⟨[], []⟩

/-- Two-hop alias chain `a -> b -> c` with no source registered. -/
def c3ChainSt : VfsState := ⟨[("a", ⟨"b", "pb"⟩), ("b", ⟨"c", "pc"⟩)], []⟩

/-- Linear alias chain of length 33: scheme `"0" -> "1" -> ... -> "33"`. -/
def c3DeepSt : VfsState :=
  ⟨(List.range 33).map (fun i => (Nat.repr i, ⟨Nat.repr (i + 1), ""⟩)), []⟩

/-- Self-aliased scheme `a -> a` (one-step cycle). -/
def cycSt : VfsState := ⟨[("a", ⟨"a", ""⟩)], []⟩

/-- File source that is never valid. -/
def invalidFs : FileSource :=
  ⟨false, fun _ => false, fun _ => none, fun _ => ([], false), fun _ _ => none⟩

/-- Valid file source where nothing exists. -/
def fsA : FileSource :=
  ⟨true, fun _ => false, fun _ => none, fun _ => ([], false), fun _ _ => none⟩

/-- Valid file source where every path exists with contents `[1, 2]`. -/
def fsB : FileSource :=
  ⟨true, fun _ => true, fun _ => some ⟨[1, 2], true⟩,
   fun _ => ([1, 2], true), fun _ _ => none⟩

/-- Registry where scheme `both` has simultaneously an alias (to
`real:base`) and a registered source (`fsA`); `real` has source `fsB`. -/
def c7St : VfsState :=
  ⟨[("both", ⟨"real", "base"⟩)], [("both", some fsA), ("real", some fsB)]⟩

/-- Registry with one plain source under scheme `file`. -/
def c2St : VfsState := ⟨[], [("file", some fsB)]⟩

/-- Archive with the single healthy entry `a.txt`. -/
def c1Arch : ZipArchive := ⟨[⟨"a.txt", [104, 105], false⟩]⟩

/-- Predicate on a `file_source_uptr` argument: the pointer is null or the
source reports `valid() == false`. -/
def sourceNullOrInvalid : Option FileSource → Prop
  | none => True
  | some s => s.valid = false

/-! Claim theorems. -/

/-- C1 (counterexample): for the nonexistent entry `"missing"` of a
concrete archive, the `archive_stream` constructor does throw, but
`archive_file_source::open` swallows the exception and hands its caller
an empty (null) stream handle — the archive-operation error never reaches
the immediate caller, contrary to the claim. -/
theorem C1_counterexample :
    archiveSourceOpen c1Arch "missing" = none
    ∧ mkArchiveStream c1Arch "missing" = .error .badVfsOperation :=
  ⟨rfl, rfl⟩

/-- C1 (amended): for every path naming a nonexistent or corrupt entry,
the `archive_stream` constructor signals `bad_vfs_operation`, but
`archive_file_source::open` catches every exception and returns an empty
(null) stream handle to its immediate caller. -/
theorem C1_archive_open_soft_fails (arch : ZipArchive) (name : String)
    (h : findEntry arch name = none
      ∨ ∃ e, findEntry arch name = some e ∧ e.corrupt = true) :
    mkArchiveStream arch name = .error .badVfsOperation
    ∧ archiveSourceOpen arch name = none := by
  have hiter : openIterState arch name = none := by
    rcases h with h | ⟨e, he, hc⟩
    · simp [openIterState, h]
    · simp [openIterState, he, hc]
  constructor
  · unfold mkArchiveStream
    rw [hiter]
  · unfold archiveSourceOpen mkArchiveStream
    rw [hiter]

/-- C1 (witness): amended claim evaluated on the concrete archive at the
nonexistent entry `"b.txt"`. -/
theorem C1_witness :
    mkArchiveStream c1Arch "b.txt" = .error .badVfsOperation
    ∧ archiveSourceOpen c1Arch "b.txt" = none :=
  C1_archive_open_soft_fails c1Arch "b.txt" (Or.inl (by decide))

/-- C9: seeking an archive extraction stream always fails with
`bad_vfs_operation`, for every stream state, offset and relative flag. -/
theorem C9_archive_seek_always_fails (s : ArchiveStreamState) (offset : Int)
    (relative : Bool) :
    archiveStreamSeek s offset relative = .error .badVfsOperation :=
  rfl

/-- C3: alias resolution always terminates — if the hop chain of the URL
ends after `N ≤ 32` hops at a URL with no further alias, resolution
succeeds and returns that final non-aliased URL; if 33 hops are possible
(a chain of length 33, in particular), or a scheme cycle is reachable
from the URL, resolution fails deterministically with the operation
error. The model is a total function, so neither infinite loop nor stack
exhaustion is possible. -/
theorem C3_alias_resolution_terminates (st : VfsState) (u : Url) :
    (∀ N r, N ≤ 32 → urlHopN st N u = some r →
        mapFind st.aliases r.scheme = none →
        resolveUrl st u 0 = .ok r)
    ∧ (∀ r, urlHopN st 33 u = some r →
        resolveUrl st u 0 = .error .badVfsOperation)
    ∧ (CyclicFrom st u.scheme →
        resolveUrl st u 0 = .error .badVfsOperation) := by
  refine ⟨?_, ?_, ?_⟩
  · intro N r hN h hnone
    exact resolveUrlGo_ok_of_hops st N 33 u r h hnone (by omega)
  · intro r h
    exact resolveUrlGo_error_of_hops st 33 u r h
  · intro hcyc
    rcases cyclic_hops st u.scheme hcyc with ⟨y, hy⟩
    rcases urlHopN_of_schemeHopN st 33 u y hy with ⟨v, hv, _⟩
    exact resolveUrlGo_error_of_hops st 33 u v hv

/-- C3 (witness): a two-hop chain resolves to its final URL, a 33-alias
chain fails with the operation error, and a one-step cycle fails with the
operation error. -/
theorem C3_witness :
    resolveUrl c3ChainSt ⟨"a", "px"⟩ 0 = .ok ⟨"c", "pc/pb/px"⟩
    ∧ resolveUrl c3DeepSt ⟨"0", ""⟩ 0 = .error .badVfsOperation
    ∧ resolveUrl cycSt ⟨"a", "x"⟩ 0 = .error .badVfsOperation :=
  ⟨(C3_alias_resolution_terminates c3ChainSt ⟨"a", "px"⟩).1 2 ⟨"c", "pc/pb/px"⟩
      (by decide) (by decide) (by decide),
   (C3_alias_resolution_terminates c3DeepSt ⟨"0", ""⟩).2.1 ⟨"33", ""⟩ (by decide),
   (C3_alias_resolution_terminates cycSt ⟨"a", "x"⟩).2.2
      ⟨0, 1, "a", by decide, by decide, by decide⟩⟩

/-- C8: one resolution hop on a URL whose scheme is aliased to target `t`
rewrites it to `t` joined with the remaining path via the path-join
operator (continuing at the next level), and in particular resolving
`aliasScheme:sub/file.txt` with `aliasScheme -> real:base` yields
`real:base/sub/file.txt`. -/
theorem C8_alias_hop_path_join (st : VfsState) (u t : Url) (level : Nat)
    (ht : mapFind st.aliases u.scheme = some t) (hlev : level ≤ 32) :
    urlHop st u = some (urlJoin t u.path)
    ∧ resolveUrl st u level = resolveUrl st (urlJoin t u.path) (level + 1)
    ∧ resolveUrl ⟨[("aliasScheme", ⟨"real", "base"⟩)], []⟩
        ⟨"aliasScheme", "sub/file.txt"⟩ 0
      = .ok ⟨"real", "base/sub/file.txt"⟩ := by
  refine ⟨?_, ?_, by decide⟩
  · simp [urlHop, ht]
  · show resolveUrlGo st (33 - level) u = _
    have h33 : 33 - level = (33 - (level + 1)) + 1 := by omega
    rw [h33]
    unfold resolveUrlGo
    rw [ht]
    rfl

/-- C8 (witness): the hop equation evaluated on the two-hop chain state at
its first hop. -/
theorem C8_witness :
    urlHop c3ChainSt ⟨"a", "px"⟩ = some ⟨"b", "pb/px"⟩
    ∧ resolveUrl c3ChainSt ⟨"a", "px"⟩ 0 = resolveUrl c3ChainSt ⟨"b", "pb/px"⟩ 1
    ∧ resolveUrl ⟨[("aliasScheme", ⟨"real", "base"⟩)], []⟩
        ⟨"aliasScheme", "sub/file.txt"⟩ 0
      = .ok ⟨"real", "base/sub/file.txt"⟩ :=
  C8_alias_hop_path_join c3ChainSt ⟨"a", "px"⟩ ⟨"b", "pb"⟩ 0
    (by decide) (by decide)

/-- C10: `resolve_scheme_aliases` is idempotent — whenever it succeeds,
the returned URL has no alias entry at its scheme, and resolving the
returned URL again returns it unchanged. -/
theorem C10_resolve_idempotent (st : VfsState) (u r : Url)
    (h : vfsResolveSchemeAliases st u = .ok r) :
    mapFind st.aliases r.scheme = none
    ∧ vfsResolveSchemeAliases st r = .ok r := by
  have hz := resolveUrlGo_ok_noAlias st 33 u r h
  exact ⟨hz, resolveUrlGo_noAlias st 32 r hz⟩

/-- C10 (witness): idempotence evaluated on the two-hop chain state. -/
theorem C10_witness :
    mapFind c3ChainSt.aliases "c" = none
    ∧ vfsResolveSchemeAliases c3ChainSt ⟨"c", "pc/pb/px"⟩
      = .ok ⟨"c", "pc/pb/px"⟩ :=
  C10_resolve_idempotent c3ChainSt ⟨"a", "px"⟩ ⟨"c", "pc/pb/px"⟩ (by decide)

/-- Removing a key that is not in the map leaves the map unchanged. -/
theorem filter_ne_of_find_none {α : Type} :
    ∀ (l : List (String × α)) (s : String), mapFind l s = none →
      l.filter (fun kv => kv.1 ≠ s) = l := by
  intro l
  induction l with
  | nil => intro s h; rfl
  | cons kv rest ih =>
    intro s h
    obtain ⟨k, v⟩ := kv
    unfold mapFind at h
    split at h
    · exact absurd h (by simp)
    · rename_i hne
      rw [List.filter_cons, if_pos (by simpa using hne), ih s h]

/-- C5: `register_scheme` returns false and leaves the registry unchanged
when the source is null or invalid or the scheme already has a source (so
the first registered source stays active); `unregister_scheme` reports
whether an entry was removed, and on a scheme with no entry it returns
false and leaves the registry unchanged. -/
theorem C5_registration_guards (st : VfsState) (scheme : String)
    (source : Option FileSource) :
    (sourceNullOrInvalid source ∨ (mapFind st.schemes scheme).isSome = true →
        registerScheme st scheme source = (st, false))
    ∧ (unregisterScheme st scheme).2 = (mapFind st.schemes scheme).isSome
    ∧ ((mapFind st.schemes scheme).isSome = false →
        unregisterScheme st scheme = (st, false)) := by
  refine ⟨?_, rfl, ?_⟩
  · intro h
    match source with
    | none => rfl
    | some src =>
      rcases h with hbad | hdup
      · simp only [sourceNullOrInvalid] at hbad
        simp [registerScheme, hbad]
      · cases hm : mapFind st.schemes scheme with
        | none => rw [hm] at hdup; simp at hdup
        | some o =>
          cases hv : src.valid with
          | true => simp [registerScheme, hv, hm]
          | false => simp [registerScheme, hv]
  · intro h
    have hnone : mapFind st.schemes scheme = none := by
      cases hm : mapFind st.schemes scheme with
      | none => rfl
      | some o => rw [hm] at h; simp at h
    unfold unregisterScheme
    rw [filter_ne_of_find_none st.schemes scheme hnone, hnone]
    rfl

/-- C5 (witness): registering an invalid source on the empty registry
fails without change, and unregistering a scheme that was never
registered returns false without change. -/
theorem C5_witness :
    registerScheme emptySt "res" (some invalidFs) = (emptySt, false)
    ∧ (unregisterScheme emptySt "res").2 = (mapFind emptySt.schemes "res").isSome
    ∧ unregisterScheme emptySt "res" = (emptySt, false) :=
  ⟨(C5_registration_guards emptySt "res" (some invalidFs)).1 (Or.inl rfl),
   (C5_registration_guards emptySt "res" (some invalidFs)).2.1,
   (C5_registration_guards emptySt "res" (some invalidFs)).2.2 rfl⟩

/-- C6: for a URL whose resolution succeeds and whose resolved scheme has
no registered (non-null) source, `exists` returns false, `open` returns
the empty stream handle, and `load` returns the empty buffer with
success = false — all returned normally, never as an error signal. -/
theorem C6_missing_scheme_soft_fails (st : VfsState) (u r : Url)
    (hres : resolveUrl st u 0 = .ok r)
    (hsrc : (mapFind st.schemes r.scheme).bind id = none) :
    vfsExists st u = .ok false
    ∧ vfsOpen st u = .ok none
    ∧ vfsLoad st u = .ok ([], false) := by
  have key : ∀ {α : Type} (f : FileSource → String → α) (fb : α),
      withFileSource st u f fb = .ok fb := by
    intro α f fb
    unfold withFileSource
    rw [hres]
    cases hm : mapFind st.schemes r.scheme with
    | none => simp [Except.map, hm]
    | some o =>
      cases o with
      | none => simp [Except.map, hm]
      | some fs => rw [hm] at hsrc; simp at hsrc
  exact ⟨key _ _, key _ _, key _ _⟩

/-- C6 (witness): the soft-failure triple evaluated on the empty registry
at `nosuch:x`. -/
theorem C6_witness :
    vfsExists emptySt ⟨"nosuch", "x"⟩ = .ok false
    ∧ vfsOpen emptySt ⟨"nosuch", "x"⟩ = .ok none
    ∧ vfsLoad emptySt ⟨"nosuch", "x"⟩ = .ok ([], false) :=
  C6_missing_scheme_soft_fails emptySt ⟨"nosuch", "x"⟩ ⟨"nosuch", "x"⟩
    (by decide) rfl

/-- C7: when a scheme simultaneously has a registered alias (to target
`t`, itself non-aliased and backed by source `srcB`) and a registered
source `srcA`, every facade operation resolves through the alias first
and dispatches to `srcB` at the joined path — the alias silently takes
precedence over the source registered at the same scheme. -/
theorem C7_alias_precedence (st : VfsState) (u t : Url)
    (srcA srcB : FileSource)
    (hau : mapFind st.aliases u.scheme = some t)
    (hsu : mapFind st.schemes u.scheme = some (some srcA))
    (hat : mapFind st.aliases t.scheme = none)
    (hst : mapFind st.schemes t.scheme = some (some srcB)) :
    vfsExists st u = .ok (srcB.srcExists (pathCombine t.path u.path))
    ∧ vfsOpen st u = .ok (srcB.srcOpen (pathCombine t.path u.path))
    ∧ vfsLoad st u = .ok (srcB.srcLoad (pathCombine t.path u.path)) := by
  have hres : resolveUrl st u 0 = .ok (urlJoin t u.path) := by
    have h1 : resolveUrlGo st (32 + 1) u
        = resolveUrlGo st 32 (urlJoin t u.path) := by
      unfold resolveUrlGo
      rw [hau]
      rfl
    have h2 : resolveUrlGo st (31 + 1) (urlJoin t u.path)
        = .ok (urlJoin t u.path) :=
      resolveUrlGo_noAlias st 31 (urlJoin t u.path) hat
    show resolveUrlGo st 33 u = _
    rw [show (33 : Nat) = 32 + 1 from rfl, h1]
    exact h2
  have key : ∀ {α : Type} (f : FileSource → String → α) (fb : α),
      withFileSource st u f fb = .ok (f srcB (pathCombine t.path u.path)) := by
    intro α f fb
    unfold withFileSource
    rw [hres]
    have hj : mapFind st.schemes (urlJoin t u.path).scheme
        = some (some srcB) := hst
    rw [Except.map]
    rw [hj]
    rfl
  exact ⟨key _ _, key _ _, key _ _⟩

/-- C7 (witness): on a registry where scheme `both` carries both an alias
to `real:base` and the source `fsA` (under which nothing exists), the
facade dispatches to the source `fsB` registered at `real` — `exists` is
true and `load` succeeds, which `fsA` would never report. -/
theorem C7_witness :
    vfsExists c7St ⟨"both", "p"⟩ = .ok true
    ∧ vfsOpen c7St ⟨"both", "p"⟩ = .ok (some ⟨[1, 2], true⟩)
    ∧ vfsLoad c7St ⟨"both", "p"⟩ = .ok ([1, 2], true) :=
  C7_alias_precedence c7St ⟨"both", "p"⟩ ⟨"real", "base"⟩ fsA fsB
    (by decide) rfl (by decide) rfl

/-- C2 (counterexample): on a registry with one registered source, the
event trace of a synchronous facade operation performs the source I/O at
lock depth 1 — the registry mutex is still held, so the claim that no
file-source I/O happens while the mutex is held is false. -/
theorem C2_counterexample :
    ¬ ioWhileLockedCount (facadeTrace c2St ⟨"file", "x"⟩) 0 = 0 := by
  decide

/-- C2 (amended): every source I/O event of a synchronous facade
operation (`exists`/`open`/`load`/`write`) happens while the registry
mutex is held — the `lock_guard` spans URL resolution, source dispatch
and the source I/O call, and is released only at scope exit. -/
theorem C2_io_performed_under_lock (st : VfsState) (u : Url) :
    ioWhileLockedCount (facadeTrace st u) 0 = ioCount (facadeTrace st u) := by
  unfold facadeTrace
  cases hres : resolveUrl st u 0 with
  | ok ru =>
    cases hm : mapFind st.schemes ru.scheme with
    | none => simp [hm, ioWhileLockedCount, ioCount]
    | some o =>
      cases o with
      | none => simp [hm, ioWhileLockedCount, ioCount]
      | some fs => simp [hm, ioWhileLockedCount, ioCount]
  | error e => rfl

/-- C4 (counterexample): for a URL whose scheme is cyclically aliased,
`load_async` does not return a future at all — the operation error raised
by alias resolution inside `open(url)` propagates synchronously to the
caller of `load_async`, so the claim that every URL yields a future
resolving to a `(buffer, success)` pair is false. -/
theorem C4_counterexample :
    vfsLoadAsync cycSt ⟨"a", "x"⟩ = .error .badVfsOperation := by
  decide

/-- C4 (amended): whenever `open(url)` returns normally, `load_async`
returns a future that resolves to the fully drained stream contents
paired with success = true, or to the empty buffer paired with
success = false on any I/O failure (null handle or failing stream); the
worker task is a total function of the opened stream, so no unhandled
error can propagate out of the worker. When `open(url)` itself raises,
the error propagates on the calling thread before any task is enqueued. -/
theorem C4_load_async_reports_through_pair (st : VfsState) (u : Url) :
    (∀ r, vfsOpen st u = .ok r →
        vfsLoadAsync st u = .ok (loadAsyncTask r)
        ∧ ((∃ s, r = some s ∧ s.healthy = true
              ∧ loadAsyncTask r = (s.contents, true))
           ∨ loadAsyncTask r = ([], false)))
    ∧ (∀ e, vfsOpen st u = .error e → vfsLoadAsync st u = .error e) := by
  constructor
  · intro r h
    constructor
    · unfold vfsLoadAsync
      rw [h]
      rfl
    · cases r with
      | none => right; rfl
      | some s =>
        cases hh : s.healthy with
        | true =>
          left
          exact ⟨s, rfl, hh, by simp [loadAsyncTask, tryReadTail, hh]⟩
        | false =>
          right
          simp [loadAsyncTask, tryReadTail, hh]
  · intro e h
    unfold vfsLoadAsync
    rw [h]
    rfl

/-- C4 (witness): on a registry whose `file` source opens every path as a
healthy stream with contents `[1, 2]`, the async load resolves to
`([1, 2], true)`; on the empty registry the open yields a null handle and
the async load resolves to `([], false)`. -/
theorem C4_witness :
    vfsLoadAsync c2St ⟨"file", "x"⟩ = .ok ([1, 2], true)
    ∧ vfsLoadAsync emptySt ⟨"nosuch", "x"⟩ = .ok ([], false) :=
  ⟨((C4_load_async_reports_through_pair c2St ⟨"file", "x"⟩).1
      (some ⟨[1, 2], true⟩) rfl).1,
   ((C4_load_async_reports_through_pair emptySt ⟨"nosuch", "x"⟩).1
      none rfl).1⟩
